import Mathlib

/-!
# Verification of the agentbackend retrieval / ingestion / conversation pipeline

A shallow embedding, in Lean 4, of the parts of the `agentbackend` Python
repository that the specification makes checkable claims about:

* the content chunker inlined in `add_document_to_vector_db`
  (`app/embeddings.py`),
* the retrieval ranker `query_vector_db` (`app/embeddings.py`),
* the ingestion operations `add_profile_to_vector_db` and
  `embed_and_store_notes` (`app/embeddings.py`),
* the embedding fallback `OpenAIEmbeddingFunction.__call__`
  (`app/embeddings.py`),
* the response generator `generate_ai_response` (`app/embeddings.py`),
* the startup credential checks (`app/embeddings.py`, `app/main.py`),
* the chat-history reader `get_chat_history` and the profile
  update/read pair (`app/database.py`),
* the conversation resolver `get_or_create_conversation`, which is
  imported by `app/routes/chatbot.py` but whose defining module is not
  part of the snapshot; it is modelled from the specification.

Python strings are modelled as `List α` where only slicing matters and as
`String` where string contents matter; Python float distances/embeddings
are modelled as `Int` (only their order and zero are relevant to the
claims); vector-index collections are modelled as lists of records keyed
by their chunk id.
-/

namespace AgentBackend

/-! ## Python truthiness for optional strings

`if not x` on an optional string is true exactly when `x` is `None` or
the empty string. -/

def truthy : Option String → Bool
  | none => false
  | some s => !s.isEmpty

/-! ## Content chunker

From `add_document_to_vector_db` (`app/embeddings.py` lines 268-303):

```python
if len(extracted_text) > 1000:
    chunk_size = 1000
    overlap = 100
    chunks = []
    for i in range(0, len(extracted_text), chunk_size - overlap):
        chunk = extracted_text[i:i + chunk_size]
        if chunk:
            chunks.append(chunk)
else:
    # the whole content as one document
```
-/

def CHUNK_SIZE : Nat := 1000

def OVERLAP : Nat := 100

/-- `range(0, stop, step)` for positive `step`: the multiples of `step`
below `stop`. -/
def pyRange (stop step : Nat) : List Nat :=
  (List.range ((stop + step - 1) / step)).map (fun k => k * step)

/-- The chunk list built by the `for i in range(...)` loop:
`extracted_text[i:i+chunk_size]` is `(text.drop i).take CHUNK_SIZE`, and
`if chunk:` keeps only non-empty chunks. -/
def documentChunks {α : Type} (text : List α) : List (List α) :=
  ((pyRange text.length (CHUNK_SIZE - OVERLAP)).map
    (fun i => (text.drop i).take CHUNK_SIZE)).filter (fun c => !c.isEmpty)

/-- The content branch of `add_document_to_vector_db`: text longer than
`CHUNK_SIZE` goes through the chunk loop, otherwise the whole content is
one chunk. -/
def addDocumentContentChunks {α : Type} (text : List α) : List (List α) :=
  if text.length > CHUNK_SIZE then documentChunks text else [text]

/-- Concatenating the chunks after removing the `OVERLAP`-long overlap
from every chunk but the first. -/
def removeOverlapConcat {α : Type} : List (List α) → List α
  | [] => []
  | c :: cs => c ++ (cs.map (fun c2 => c2.drop OVERLAP)).flatten

/-! ### Chunker lemmas -/

theorem documentChunks_nil {α : Type} : documentChunks ([] : List α) = [] := by
  norm_num [documentChunks, pyRange, CHUNK_SIZE, OVERLAP]

theorem pyRange_cons (n : Nat) (hn : 0 < n) :
    pyRange n 900 = 0 :: (pyRange (n - 900) 900).map (fun i => i + 900) := by
  unfold pyRange
  have h1 : (n + 900 - 1) / 900 = (n - 1) / 900 + 1 := by
    have he : n + 900 - 1 = (n - 1) + 900 := by omega
    rw [he, Nat.add_div_right _ (by decide)]
  have h2 : (n - 900 + 900 - 1) / 900 = (n - 1) / 900 := by
    rcases le_or_lt 900 n with h | h
    · congr 1
      omega
    · have e1 : n - 900 = 0 := by omega
      rw [e1]
      have e2 : (0 + 900 - 1) / 900 = 0 := Nat.div_eq_of_lt (by omega)
      rw [e2]
      exact (Nat.div_eq_of_lt (by omega)).symm
  rw [h1, h2, List.range_succ_eq_map]
  simp only [List.map_cons, Nat.zero_mul, List.map_map]
  refine congrArg (List.cons 0) ?_
  apply List.map_congr_left
  intro k _
  simp only [Function.comp_apply, Nat.succ_eq_add_one]
  omega

theorem take_chunk_ne_nil {α : Type} (t : List α) (ht : t ≠ []) :
    t.take CHUNK_SIZE ≠ [] := by
  intro hemp
  rw [List.take_eq_nil_iff] at hemp
  rcases hemp with h | h
  · exact absurd h (by norm_num [CHUNK_SIZE])
  · exact ht h

theorem documentChunks_cons {α : Type} (t : List α) (ht : t ≠ []) :
    documentChunks t = t.take CHUNK_SIZE :: documentChunks (t.drop 900) := by
  have hn : 0 < t.length := List.length_pos.mpr ht
  unfold documentChunks
  rw [show CHUNK_SIZE - OVERLAP = 900 from rfl, List.length_drop,
    pyRange_cons t.length hn]
  simp only [List.map_cons, List.drop_zero, List.map_map]
  rw [List.filter_cons_of_pos
    (by simpa using take_chunk_ne_nil t ht)]
  refine congrArg (List.cons (t.take CHUNK_SIZE)) ?_
  refine congrArg (List.filter (fun c : List α => !c.isEmpty)) ?_
  apply List.map_congr_left
  intro i _
  simp only [Function.comp_apply]
  rw [List.drop_drop, Nat.add_comm i 900]

/-- Every chunk the loop produces has length at most `CHUNK_SIZE`. -/
theorem documentChunks_length_le {α : Type} (t : List α) :
    ∀ c ∈ documentChunks t, c.length ≤ CHUNK_SIZE := by
  intro c hc
  unfold documentChunks at hc
  have hc' := List.mem_of_mem_filter hc
  rcases List.mem_map.mp hc' with ⟨i, _, rfl⟩
  exact List.length_take_le _ _

/-- Removing the overlaps and concatenating reconstructs the input. -/
theorem removeOverlapConcat_documentChunks {α : Type} (t : List α) :
    removeOverlapConcat (documentChunks t) = t := by
  generalize hfuel : t.length = n
  induction n using Nat.strong_induction_on generalizing t with
  | _ n ih =>
  rcases eq_or_ne t [] with rfl | ht
  · rw [documentChunks_nil]; rfl
  have hn : 0 < t.length := List.length_pos.mpr ht
  rw [documentChunks_cons t ht]
  rcases eq_or_ne (t.drop 900) [] with hdrop | ht'
  · rw [hdrop, documentChunks_nil]
    have hlen : t.length ≤ 900 := by
      have h9 := congrArg List.length hdrop
      rw [List.length_drop] at h9
      simp only [List.length_nil] at h9
      omega
    show t.take CHUNK_SIZE ++ _ = t
    simp only [List.map_nil, List.flatten_nil, List.append_nil]
    exact List.take_of_length_le (le_trans hlen (by decide))
  · have hlt : (t.drop 900).length < n := by
      rw [← hfuel, List.length_drop]; omega
    have ihrec := ih (t.drop 900).length hlt (t.drop 900) rfl
    rw [documentChunks_cons (t.drop 900) ht'] at ihrec ⊢
    show t.take CHUNK_SIZE ++ _ = t
    simp only [List.map_cons, List.flatten_cons]
    have ihrec' : (t.drop 900).take CHUNK_SIZE ++
        ((documentChunks ((t.drop 900).drop 900)).map
          (fun c2 => c2.drop OVERLAP)).flatten = t.drop 900 := ihrec
    have hX : ((documentChunks ((t.drop 900).drop 900)).map
        (fun c2 => c2.drop OVERLAP)).flatten = (t.drop 900).drop CHUNK_SIZE :=
      List.append_cancel_left
        (ihrec'.trans (List.take_append_drop CHUNK_SIZE (t.drop 900)).symm)
    rw [hX]
    have hmid : ((t.drop 900).take CHUNK_SIZE).drop OVERLAP
        = (t.drop 1000).take 900 := by
      rw [List.drop_take]
      have h1 : (t.drop 900).drop OVERLAP = t.drop 1000 := by
        rw [List.drop_drop]
        norm_num [OVERLAP]
      rw [h1]
      norm_num [CHUNK_SIZE, OVERLAP]
    rw [hmid]
    have hlast : (t.drop 900).drop CHUNK_SIZE = (t.drop 1000).drop 900 := by
      rw [List.drop_drop, List.drop_drop]
      norm_num [CHUNK_SIZE]
    rw [hlast]
    simp only [show CHUNK_SIZE = (1000 : Nat) from rfl]
    rw [List.take_append_drop, List.take_append_drop]

theorem removeOverlapConcat_single {α : Type} (t : List α) :
    removeOverlapConcat [t] = t := by
  show t ++ _ = t
  simp

/-- **C2.** For every input text, the content chunker of
`add_document_to_vector_db` (target size 1000, overlap 100) produces
chunks each of length at most the target size; concatenating the chunks
after removing the overlaps reconstructs the original text; and any text
not longer than the target size yields exactly one chunk. -/
theorem content_chunker_spec {α : Type} (t : List α) :
    (∀ c ∈ addDocumentContentChunks t, c.length ≤ CHUNK_SIZE) ∧
    removeOverlapConcat (addDocumentContentChunks t) = t ∧
    (t.length ≤ CHUNK_SIZE → addDocumentContentChunks t = [t]) := by
  unfold addDocumentContentChunks
  by_cases h : t.length > CHUNK_SIZE
  · rw [if_pos h]
    refine ⟨documentChunks_length_le t, removeOverlapConcat_documentChunks t, ?_⟩
    intro hle
    omega
  · rw [if_neg h]
    refine ⟨?_, removeOverlapConcat_single t, fun _ => rfl⟩
    intro c hc
    rw [List.mem_singleton] at hc
    subst hc
    omega

/-- Witness for C2 at the concrete text `[1,2,3]`. -/
theorem content_chunker_spec_witness :
    (∀ c ∈ addDocumentContentChunks [1, 2, 3], c.length ≤ CHUNK_SIZE) ∧
    removeOverlapConcat (addDocumentContentChunks [1, 2, 3]) = [1, 2, 3] ∧
    (([1, 2, 3] : List Nat).length ≤ CHUNK_SIZE →
      addDocumentContentChunks [1, 2, 3] = [[1, 2, 3]]) :=
  content_chunker_spec [1, 2, 3]

/-! ## Retrieval ranker

`query_vector_db` (`app/embeddings.py` lines 392-522) runs one filtered
nearest-neighbor query per category (document, note, profile,
conversation).  The document results are extended into the accumulators
directly; the note, profile and conversation loops append an item only
when its id is not already among the collected ids (and record the id as
they go, so duplicates within one batch are also skipped).  The combined
triples are then sorted ascending by distance with Python's stable
`sorted` and truncated to `n_results`.

The nearest-neighbor queries themselves are external (`collection.query`);
their per-category result lists are inputs of the model.  Distances are
modelled as `Int` (only their order matters). -/

structure RankedItem where
  id : String
  document : String
  metadata : String
  distance : Int
deriving DecidableEq, Repr

/-- One step of the `if note_id not in ids: ... ids.append(note_id)`
loops. -/
def appendIfNew (acc : List RankedItem) (e : RankedItem) : List RankedItem :=
  if acc.any (fun x => x.id == e.id) then acc else acc ++ [e]

/-- The four per-category collection phases of `query_vector_db`.
The document phase runs only under `if user_id:` and extends the
accumulators without an id check; the note and profile phases also run
only under `if user_id:`; the conversation phase runs under
`if include_conversation and visitor_id:` (modelled by `convEnabled`). -/
def collectResults (hasUserId convEnabled : Bool)
    (docResults noteResults profileResults convResults : List RankedItem) :
    List RankedItem :=
  let s1 := if hasUserId then docResults else []
  let s2 := (if hasUserId then noteResults else []).foldl appendIfNew s1
  let s3 := (if hasUserId then profileResults else []).foldl appendIfNew s2
  (if convEnabled then convResults else []).foldl appendIfNew s3

/-- `query_vector_db`: empty result when the collection is empty or no
category produced anything; otherwise the collected triples sorted
ascending by distance (stably, as Python's `sorted`) and truncated to
`n_results`. -/
def query_vector_db (collectionCount n_results : Nat)
    (hasUserId convEnabled : Bool)
    (docResults noteResults profileResults convResults : List RankedItem) :
    List RankedItem :=
  if collectionCount = 0 then []
  else
    let combined := collectResults hasUserId convEnabled
      docResults noteResults profileResults convResults
    if combined.isEmpty then []
    else
      (combined.mergeSort (fun a b => decide (a.distance ≤ b.distance))).take
        n_results

/-! ### Ranker lemmas -/

theorem ids_appendIfNew (acc : List RankedItem) (e : RankedItem)
    (h : (acc.map RankedItem.id).Nodup) :
    ((appendIfNew acc e).map RankedItem.id).Nodup := by
  unfold appendIfNew
  by_cases hmem : acc.any (fun x => x.id == e.id)
  · rw [if_pos hmem]; exact h
  · rw [if_neg hmem, List.map_append, List.map_singleton]
    refine List.Nodup.append h (List.nodup_singleton _) ?_
    intro i hi hi'
    rw [List.mem_singleton] at hi'
    subst hi'
    rcases List.mem_map.mp hi with ⟨x, hx, hxi⟩
    apply hmem
    rw [List.any_eq_true]
    exact ⟨x, hx, by rw [beq_iff_eq]; exact hxi⟩

theorem ids_foldl_appendIfNew (news : List RankedItem) :
    ∀ acc : List RankedItem, (acc.map RankedItem.id).Nodup →
    ((news.foldl appendIfNew acc).map RankedItem.id).Nodup := by
  induction news with
  | nil => intro acc h; exact h
  | cons e news ih =>
    intro acc h
    exact ih (appendIfNew acc e) (ids_appendIfNew acc e h)

theorem ids_collectResults (hasUserId convEnabled : Bool)
    (docResults noteResults profileResults convResults : List RankedItem)
    (hdoc : (docResults.map RankedItem.id).Nodup) :
    ((collectResults hasUserId convEnabled docResults noteResults
      profileResults convResults).map RankedItem.id).Nodup := by
  unfold collectResults
  apply ids_foldl_appendIfNew
  apply ids_foldl_appendIfNew
  apply ids_foldl_appendIfNew
  cases hasUserId
  · simp
  · exact hdoc

/-- **C1.** For every query and requested budget `n_results`, the
retrieval ranker returns at most `n_results` results, the results are
sorted non-decreasing by distance, and (provided each single
nearest-neighbor query returns pairwise-distinct chunk ids, which the
document phase relies on) no two returned results share the same chunk
id. -/
theorem query_vector_db_spec (collectionCount n_results : Nat)
    (hasUserId convEnabled : Bool)
    (docResults noteResults profileResults convResults : List RankedItem)
    (hdoc : (docResults.map RankedItem.id).Nodup) :
    (query_vector_db collectionCount n_results hasUserId convEnabled
        docResults noteResults profileResults convResults).length ≤ n_results ∧
    (query_vector_db collectionCount n_results hasUserId convEnabled
        docResults noteResults profileResults convResults).Pairwise
      (fun a b => a.distance ≤ b.distance) ∧
    ((query_vector_db collectionCount n_results hasUserId convEnabled
        docResults noteResults profileResults convResults).map
      RankedItem.id).Nodup := by
  unfold query_vector_db
  by_cases hcc : collectionCount = 0
  · rw [if_pos hcc]
    refine ⟨by simp, by simp, by simp⟩
  rw [if_neg hcc]
  set combined := collectResults hasUserId convEnabled
    docResults noteResults profileResults convResults with hcombined
  by_cases hemp : combined.isEmpty
  · rw [if_pos hemp]
    refine ⟨by simp, by simp, by simp⟩
  rw [if_neg hemp]
  have hsorted := @List.sorted_mergeSort RankedItem
    (fun a b : RankedItem => decide (a.distance ≤ b.distance))
    (fun a b c hab hbc => by
      simp only [decide_eq_true_eq] at hab hbc ⊢; omega)
    (fun a b => by
      simp only [Bool.or_eq_true, decide_eq_true_eq]; omega)
    combined
  have hperm := List.mergeSort_perm combined
    (fun a b : RankedItem => decide (a.distance ≤ b.distance))
  refine ⟨List.length_take_le _ _, ?_, ?_⟩
  · have hp : (combined.mergeSort
        (fun a b => decide (a.distance ≤ b.distance))).Pairwise
        (fun a b : RankedItem => a.distance ≤ b.distance) :=
      hsorted.imp (fun h => of_decide_eq_true h)
    exact List.Pairwise.sublist (List.take_sublist _ _) hp
  · have hn : (combined.map RankedItem.id).Nodup :=
      ids_collectResults hasUserId convEnabled _ _ _ _ hdoc
    have hn2 : ((combined.mergeSort
        (fun a b => decide (a.distance ≤ b.distance))).map
        RankedItem.id).Nodup :=
      ((hperm.map RankedItem.id).nodup_iff).mpr hn
    have hsub : List.Sublist
        (((combined.mergeSort
          (fun a b => decide (a.distance ≤ b.distance))).take n_results).map
          RankedItem.id)
        ((combined.mergeSort
          (fun a b => decide (a.distance ≤ b.distance))).map RankedItem.id) :=
      (List.take_sublist _ _).map RankedItem.id
    exact List.Nodup.sublist hsub hn2

/-- Witness for C1 at a concrete collection state and budget 2. -/
theorem query_vector_db_spec_witness :
    (([⟨"a", "da", "ma", 5⟩, ⟨"b", "db", "mb", 1⟩] :
        List RankedItem).map RankedItem.id).Nodup ∧
    ((query_vector_db 4 2 true true
        [⟨"a", "da", "ma", 5⟩, ⟨"b", "db", "mb", 1⟩]
        [⟨"a", "na", "ma", 0⟩] [] [⟨"c", "dc", "mc", 3⟩]).length ≤ 2 ∧
    (query_vector_db 4 2 true true
        [⟨"a", "da", "ma", 5⟩, ⟨"b", "db", "mb", 1⟩]
        [⟨"a", "na", "ma", 0⟩] [] [⟨"c", "dc", "mc", 3⟩]).Pairwise
      (fun a b => a.distance ≤ b.distance) ∧
    ((query_vector_db 4 2 true true
        [⟨"a", "da", "ma", 5⟩, ⟨"b", "db", "mb", 1⟩]
        [⟨"a", "na", "ma", 0⟩] [] [⟨"c", "dc", "mc", 3⟩]).map
      RankedItem.id).Nodup) :=
  ⟨by decide, query_vector_db_spec 4 2 true true _ _ _ _ (by decide)⟩

/-! ## Ingestion pipeline

`add_profile_to_vector_db` (`app/embeddings.py` lines 69-159) deletes
the existing profile chunks of the effective user
(`where {category: profile, user_id: uid}`), then adds one document per
truthy profile field (name, location, bio, skills, experience,
interests) under the stable id `f"{field}_{uid}"`.

`embed_and_store_notes` (lines 323-390) adds one document per note that
has both an id and content, under the stable id
`f"note_{user_id}_{note_id}"`; per the comment in the source,
`collection.add` with an existing id acts as an upsert, which is how
`collection_add` is modelled.  A collection is a list of records keyed
by chunk id. -/

structure VEntry where
  id : String
  document : String
  category : String
  subcategory : String
  userId : String
  noteId : String
deriving DecidableEq, Repr

/-- `collection.add` for one record: replace the record with the same id
if present, otherwise append (upsert, per the source comment). -/
def upsertOne (s : List VEntry) (e : VEntry) : List VEntry :=
  if s.any (fun x => x.id == e.id) then
    s.map (fun x => if x.id == e.id then e else x)
  else s ++ [e]

/-- `collection.add(documents, metadatas, ids)`. -/
def collection_add (s : List VEntry) (es : List VEntry) : List VEntry :=
  es.foldl upsertOne s

/-- `collection.delete(where={category: profile, user_id: uid})`. -/
def deleteProfileOf (uid : String) (s : List VEntry) : List VEntry :=
  s.filter (fun e => !(e.category == "profile" && e.userId == uid))

/-- The profile fields read by `add_profile_to_vector_db`, each
optional. -/
structure ProfileData where
  name : Option String
  location : Option String
  bio : Option String
  skills : Option String
  experience : Option String
  interests : Option String
  userId : Option String
deriving DecidableEq, Repr

/-- `user_id or profile_data.get("user_id") or "default"` (Python `or`
on optional strings: first truthy value). -/
def effectiveUserId (user_id : Option String) (pd : ProfileData) : String :=
  if truthy user_id then user_id.getD ""
  else if truthy pd.userId then pd.userId.getD ""
  else "default"

/-- The six `if profile_data.get(field): documents.append(...)` blocks,
in source order. -/
def profileEntries (pd : ProfileData) (uid : String) : List VEntry :=
  [(pd.name, "name"), (pd.location, "location"), (pd.bio, "bio"),
   (pd.skills, "skills"), (pd.experience, "experience"),
   (pd.interests, "interests")].filterMap
    (fun p =>
      if truthy p.1 then
        some ⟨p.2 ++ "_" ++ uid, p.1.getD "", "profile", p.2, uid, ""⟩
      else none)

/-- `add_profile_to_vector_db`: clear the user's existing profile
documents, then add the new ones. -/
def add_profile_to_vector_db (pd : ProfileData) (user_id : Option String)
    (s : List VEntry) : List VEntry :=
  let uid := effectiveUserId user_id pd
  collection_add (deleteProfileOf uid s) (profileEntries pd uid)

/-- A note as consumed by `embed_and_store_notes`: `note.get('id')` and
`note.get('content')`. -/
structure NoteData where
  noteId : Option String
  content : Option String
deriving DecidableEq, Repr

/-- The note loop: skip notes missing id or content, otherwise build the
`User Note: ...` document with stable id `note_{user_id}_{note_id}`. -/
def noteEntries (user_id : String) (notes : List NoteData) : List VEntry :=
  notes.filterMap
    (fun note =>
      if truthy note.noteId && truthy note.content then
        some ⟨"note_" ++ user_id ++ "_" ++ note.noteId.getD "",
          "User Note: " ++ note.content.getD "", "note", "", user_id,
          note.noteId.getD ""⟩
      else none)

/-- `embed_and_store_notes`: upsert the note documents (no delete
step). -/
def embed_and_store_notes (user_id : String) (notes : List NoteData)
    (s : List VEntry) : List VEntry :=
  collection_add s (noteEntries user_id notes)

/-! ### Ingestion lemmas -/

theorem mem_upsertOne {s : List VEntry} {a e : VEntry} :
    e ∈ upsertOne s a ↔ e = a ∨ (e ∈ s ∧ e.id ≠ a.id) := by
  unfold upsertOne
  by_cases hany : s.any (fun x => x.id == a.id)
  · rw [if_pos hany]
    constructor
    · intro hmem
      rcases List.mem_map.mp hmem with ⟨x, hx, hxe⟩
      by_cases hid : x.id = a.id
      · left
        rw [if_pos (by rw [beq_iff_eq]; exact hid)] at hxe
        exact hxe.symm
      · right
        rw [if_neg (by rw [beq_iff_eq]; exact hid)] at hxe
        subst hxe
        exact ⟨hx, hid⟩
    · intro hmem
      rcases hmem with rfl | ⟨hmem, hid⟩
      · rcases List.any_eq_true.mp hany with ⟨x, hx, hxid⟩
        refine List.mem_map.mpr ⟨x, hx, ?_⟩
        rw [if_pos hxid]
      · refine List.mem_map.mpr ⟨e, hmem, ?_⟩
        rw [if_neg (by rw [beq_iff_eq]; exact hid)]
  · rw [if_neg hany]
    rw [List.mem_append, List.mem_singleton]
    constructor
    · intro hmem
      rcases hmem with hmem | rfl
      · by_cases hid : e.id = a.id
        · exfalso
          exact hany (List.any_eq_true.mpr ⟨e, hmem, by rw [beq_iff_eq]; exact hid⟩)
        · exact Or.inr ⟨hmem, hid⟩
      · exact Or.inl rfl
    · intro hmem
      rcases hmem with rfl | ⟨hmem, _⟩
      · exact Or.inr rfl
      · exact Or.inl hmem

theorem ids_upsertOne {s : List VEntry} {a : VEntry}
    (h : (s.map VEntry.id).Nodup) :
    ((upsertOne s a).map VEntry.id).Nodup := by
  unfold upsertOne
  by_cases hany : s.any (fun x => x.id == a.id)
  · rw [if_pos hany]
    have hmap : (s.map (fun x => if x.id == a.id then a else x)).map VEntry.id
        = s.map VEntry.id := by
      rw [List.map_map]
      apply List.map_congr_left
      intro x _
      simp only [Function.comp_apply]
      by_cases hid : x.id = a.id
      · rw [if_pos (by rw [beq_iff_eq]; exact hid)]
        exact hid.symm
      · rw [if_neg (by rw [beq_iff_eq]; exact hid)]
    rw [hmap]
    exact h
  · rw [if_neg hany, List.map_append, List.map_singleton]
    refine List.Nodup.append h (List.nodup_singleton _) ?_
    intro i hi hi'
    rw [List.mem_singleton] at hi'
    subst hi'
    rcases List.mem_map.mp hi with ⟨x, hx, hxi⟩
    exact hany (List.any_eq_true.mpr ⟨x, hx, by rw [beq_iff_eq]; exact hxi⟩)

theorem ids_collection_add {es : List VEntry} :
    ∀ {s : List VEntry}, (s.map VEntry.id).Nodup →
    ((collection_add s es).map VEntry.id).Nodup := by
  induction es with
  | nil => intro s h; exact h
  | cons a es ih =>
    intro s h
    exact ih (ids_upsertOne h)

theorem mem_collection_add {es : List VEntry}
    (hes : (es.map VEntry.id).Nodup) :
    ∀ {s : List VEntry} {e : VEntry},
    (e ∈ collection_add s es ↔ e ∈ es ∨ (e ∈ s ∧ e.id ∉ es.map VEntry.id)) := by
  induction es with
  | nil =>
    intro s e
    simp [collection_add]
  | cons a es ih =>
    rw [List.map_cons, List.nodup_cons] at hes
    intro s e
    show e ∈ collection_add (upsertOne s a) es ↔ _
    rw [ih hes.2, mem_upsertOne]
    constructor
    · intro hmem
      rcases hmem with hmem | ⟨rfl | ⟨hmem, hne⟩, hnot⟩
      · exact Or.inl (List.mem_cons_of_mem a hmem)
      · exact Or.inl (List.mem_cons_self _ _)
      · refine Or.inr ⟨hmem, ?_⟩
        rw [List.map_cons, List.mem_cons]
        rintro (h | h)
        · exact hne h
        · exact hnot h
    · intro hmem
      rcases hmem with hmem | ⟨hmem, hnot⟩
      · rcases List.mem_cons.mp hmem with rfl | hmem
        · by_cases hin : e ∈ es
          · exact Or.inl hin
          · refine Or.inr ⟨Or.inl rfl, ?_⟩
            intro hid
            rcases List.mem_map.mp hid with ⟨x, hx, hxi⟩
            exact hes.1 (by rw [← hxi]; exact List.mem_map_of_mem VEntry.id hx)
        · exact Or.inl hmem
      · rw [List.map_cons, List.mem_cons] at hnot
        push_neg at hnot
        exact Or.inr ⟨Or.inr ⟨hmem, hnot.1⟩, hnot.2⟩

theorem ids_deleteProfileOf {uid : String} {s : List VEntry}
    (h : (s.map VEntry.id).Nodup) :
    ((deleteProfileOf uid s).map VEntry.id).Nodup :=
  List.Nodup.sublist ((List.filter_sublist s).map VEntry.id) h

theorem mem_deleteProfileOf {uid : String} {s : List VEntry} {e : VEntry} :
    e ∈ deleteProfileOf uid s ↔
      e ∈ s ∧ ¬(e.category = "profile" ∧ e.userId = uid) := by
  unfold deleteProfileOf
  rw [List.mem_filter]
  constructor
  · intro ⟨h1, h2⟩
    refine ⟨h1, ?_⟩
    intro ⟨hc, hu⟩
    simp only [hc, hu, beq_self_eq_true, Bool.and_self, Bool.not_true] at h2
    exact Bool.false_ne_true h2
  · intro ⟨h1, h2⟩
    refine ⟨h1, ?_⟩
    simp only [Bool.not_eq_true', Bool.and_eq_false_iff, beq_eq_false_iff_ne]
    by_cases hc : e.category = "profile"
    · exact Or.inr (fun hu => h2 ⟨hc, hu⟩)
    · exact Or.inl hc

theorem profileEntries_category {pd : ProfileData} {uid : String} :
    ∀ e ∈ profileEntries pd uid, e.category = "profile" ∧ e.userId = uid := by
  intro e he
  unfold profileEntries at he
  rcases List.mem_filterMap.mp he with ⟨p, _, hp⟩
  by_cases ht : truthy p.1
  · rw [if_pos ht] at hp
    cases hp
    exact ⟨rfl, rfl⟩
  · rw [if_neg ht] at hp
    cases hp

theorem string_append_ne_of_length_ne {p q uid : String}
    (h : p.length ≠ q.length) : p ++ uid ≠ q ++ uid := by
  intro heq
  apply h
  have hl := congrArg String.length heq
  rw [String.length_append, String.length_append] at hl
  omega

theorem profileEntries_ids_nodup {pd : ProfileData} {uid : String} :
    ((profileEntries pd uid).map VEntry.id).Nodup := by
  have hsub : List.Sublist ((profileEntries pd uid).map VEntry.id)
      ([(pd.name, "name"), (pd.location, "location"), (pd.bio, "bio"),
        (pd.skills, "skills"), (pd.experience, "experience"),
        (pd.interests, "interests")].map
        (fun p : Option String × String => p.2 ++ "_" ++ uid)) := by
    unfold profileEntries
    generalize ([(pd.name, "name"), (pd.location, "location"), (pd.bio, "bio"),
      (pd.skills, "skills"), (pd.experience, "experience"),
      (pd.interests, "interests")] : List (Option String × String)) = l
    induction l with
    | nil => simp
    | cons p l ih =>
      by_cases ht : truthy p.1
      · rw [List.filterMap_cons_some (by rw [if_pos ht])]
        simp only [List.map_cons]
        exact List.Sublist.cons₂ _ ih
      · rw [List.filterMap_cons_none (by rw [if_neg ht])]
        simp only [List.map_cons]
        exact List.Sublist.cons _ ih
  refine List.Nodup.sublist hsub ?_
  apply List.Nodup.of_map String.length
  simp only [List.map_cons, List.map_nil, List.map_map, Function.comp_apply,
    String.length_append]
  have e0 : "_".length = 1 := rfl
  have e1 : "name".length = 4 := rfl
  have e2 : "location".length = 8 := rfl
  have e3 : "bio".length = 3 := rfl
  have e4 : "skills".length = 6 := rfl
  have e5 : "experience".length = 10 := rfl
  have e6 : "interests".length = 9 := rfl
  rw [e0, e1, e2, e3, e4, e5, e6]
  simp only [List.nodup_cons, List.mem_cons, List.not_mem_nil, or_false,
    not_or, List.nodup_nil, and_true, not_false_iff]
  omega

/-- **C3.** Reindexing is idempotent: running
`add_profile_to_vector_db` twice with identical input leaves the set of
indexed chunks identical to running it once, the chunk ids stay
pairwise distinct (no duplicate chunks), and likewise for
`embed_and_store_notes` with its stable note ids. -/
theorem reindex_idempotent (pd : ProfileData) (user_id : Option String)
    (uid : String) (notes : List NoteData) (s : List VEntry)
    (hs : (s.map VEntry.id).Nodup)
    (hnotes : ((noteEntries uid notes).map VEntry.id).Nodup) :
    (((add_profile_to_vector_db pd user_id s).map VEntry.id).Nodup ∧
      (((add_profile_to_vector_db pd user_id
          (add_profile_to_vector_db pd user_id s)).map VEntry.id).Nodup) ∧
      ∀ e, e ∈ add_profile_to_vector_db pd user_id
          (add_profile_to_vector_db pd user_id s) ↔
        e ∈ add_profile_to_vector_db pd user_id s) ∧
    (((embed_and_store_notes uid notes s).map VEntry.id).Nodup ∧
      ∀ e, e ∈ embed_and_store_notes uid notes
          (embed_and_store_notes uid notes s) ↔
        e ∈ embed_and_store_notes uid notes s) := by
  constructor
  · set u := effectiveUserId user_id pd with hu
    have hnews : ((profileEntries pd u).map VEntry.id).Nodup :=
      profileEntries_ids_nodup
    have hone : ((add_profile_to_vector_db pd user_id s).map VEntry.id).Nodup :=
      ids_collection_add (ids_deleteProfileOf hs)
    have htwo : ((add_profile_to_vector_db pd user_id
        (add_profile_to_vector_db pd user_id s)).map VEntry.id).Nodup :=
      ids_collection_add (ids_deleteProfileOf hone)
    refine ⟨hone, htwo, ?_⟩
    have hfs : ∀ e, e ∈ add_profile_to_vector_db pd user_id s ↔
        (e ∈ profileEntries pd u ∨
          ((e ∈ s ∧ ¬(e.category = "profile" ∧ e.userId = u)) ∧
            e.id ∉ (profileEntries pd u).map VEntry.id)) := by
      intro e
      show e ∈ collection_add (deleteProfileOf u s) (profileEntries pd u) ↔ _
      rw [mem_collection_add hnews, mem_deleteProfileOf]
    intro e
    have hP := @profileEntries_category pd u e
    show e ∈ collection_add
        (deleteProfileOf u (add_profile_to_vector_db pd user_id s))
        (profileEntries pd u) ↔ _
    rw [mem_collection_add hnews, mem_deleteProfileOf, hfs e]
    tauto
  · have hone : ((embed_and_store_notes uid notes s).map VEntry.id).Nodup :=
      ids_collection_add hs
    refine ⟨hone, ?_⟩
    have hgs : ∀ e, e ∈ embed_and_store_notes uid notes s ↔
        (e ∈ noteEntries uid notes ∨
          (e ∈ s ∧ e.id ∉ (noteEntries uid notes).map VEntry.id)) := by
      intro e
      show e ∈ collection_add s (noteEntries uid notes) ↔ _
      exact mem_collection_add hnotes
    intro e
    show e ∈ collection_add (embed_and_store_notes uid notes s)
        (noteEntries uid notes) ↔ _
    rw [mem_collection_add hnotes, hgs e]
    tauto

/-- Witness for C3 at a concrete profile, note list and empty
collection. -/
theorem reindex_idempotent_witness :
    ((([] : List VEntry).map VEntry.id).Nodup ∧
      ((noteEntries "u1" [⟨some "n1", some "hello"⟩]).map VEntry.id).Nodup) ∧
    (((add_profile_to_vector_db
          ⟨some "Ada", none, some "builds things", some "lean", none, none,
            some "u1"⟩ (some "u1") []).map VEntry.id).Nodup ∧
      (((add_profile_to_vector_db
          ⟨some "Ada", none, some "builds things", some "lean", none, none,
            some "u1"⟩ (some "u1")
          (add_profile_to_vector_db
            ⟨some "Ada", none, some "builds things", some "lean", none, none,
              some "u1"⟩ (some "u1") [])).map VEntry.id).Nodup) ∧
      ∀ e, e ∈ add_profile_to_vector_db
          ⟨some "Ada", none, some "builds things", some "lean", none, none,
            some "u1"⟩ (some "u1")
          (add_profile_to_vector_db
            ⟨some "Ada", none, some "builds things", some "lean", none, none,
              some "u1"⟩ (some "u1") []) ↔
        e ∈ add_profile_to_vector_db
          ⟨some "Ada", none, some "builds things", some "lean", none, none,
            some "u1"⟩ (some "u1") []) ∧
    (((embed_and_store_notes "u1" [⟨some "n1", some "hello"⟩] []).map
        VEntry.id).Nodup ∧
      ∀ e, e ∈ embed_and_store_notes "u1" [⟨some "n1", some "hello"⟩]
          (embed_and_store_notes "u1" [⟨some "n1", some "hello"⟩] []) ↔
        e ∈ embed_and_store_notes "u1" [⟨some "n1", some "hello"⟩] []) :=
  ⟨⟨by decide, by decide⟩,
    reindex_idempotent
      ⟨some "Ada", none, some "builds things", some "lean", none, none,
        some "u1"⟩ (some "u1") "u1" [⟨some "n1", some "hello"⟩] []
      (by decide) (by decide)⟩

/-! ## Identity resolver: conversations

`get_or_create_conversation` is imported from `app.database` by
`app/routes/chatbot.py` (lines 10-14) and called at lines 90-95, but the
snapshot's `app/database.py` does not define it.  It is modelled from
the specification (section 4.4): query the conversation for
`(chatbot_id, visitor_id)` first; if absent, derive the owner from the
chatbot record (never from caller input) and insert; on insert conflict
refetch and return the existing id.  The model is sequential, so the
insert cannot conflict. -/

structure Chatbot where
  id : String
  userId : String
deriving DecidableEq, Repr

structure Conversation where
  id : String
  chatbotId : String
  visitorId : String
  userId : String
deriving DecidableEq, Repr

structure RelationalState where
  chatbots : List Chatbot
  conversations : List Conversation
deriving DecidableEq, Repr

/-- Modelled from the spec: `get_or_create_conversation(chatbot_id,
visitor_id)` — the conversation resolver, whose defining module is
missing from the snapshot.  `freshId` stands for the id the store would
assign to a newly inserted row. -/
def get_or_create_conversation (chatbotId visitorId freshId : String)
    (s : RelationalState) : Except String (String × RelationalState) :=
  match s.conversations.find?
      (fun c => c.chatbotId == chatbotId && c.visitorId == visitorId) with
  | some c => .ok (c.id, s)
  | none =>
    match s.chatbots.find? (fun b => b.id == chatbotId) with
    | none => .error "Chatbot not found"
    | some b =>
      .ok (freshId,
        { s with conversations :=
            s.conversations ++ [⟨freshId, chatbotId, visitorId, b.userId⟩] })

/-- At most one conversation per `(chatbot_id, visitor_id)` pair. -/
def pairUnique (conversations : List Conversation) : Prop :=
  conversations.Pairwise
    (fun c1 c2 => ¬(c1.chatbotId = c2.chatbotId ∧ c1.visitorId = c2.visitorId))

/-! ### Resolver lemmas -/

theorem find?_isSome_of_ok {chatbotId visitorId freshId : String}
    {s s' : RelationalState} {i : String}
    (h : get_or_create_conversation chatbotId visitorId freshId s
      = .ok (i, s')) :
    ∃ c ∈ s'.conversations,
      c.chatbotId = chatbotId ∧ c.visitorId = visitorId ∧ c.id = i := by
  unfold get_or_create_conversation at h
  cases hfind : s.conversations.find?
      (fun c => c.chatbotId == chatbotId && c.visitorId == visitorId) with
  | some c =>
    rw [hfind] at h
    cases h
    have hc := List.find?_some hfind
    simp only [Bool.and_eq_true, beq_iff_eq] at hc
    exact ⟨c, List.mem_of_find?_eq_some hfind, hc.1, hc.2, rfl⟩
  | none =>
    rw [hfind] at h
    cases hbot : s.chatbots.find? (fun b => b.id == chatbotId) with
    | none => rw [hbot] at h; cases h
    | some b =>
      rw [hbot] at h
      cases h
      exact ⟨⟨freshId, chatbotId, visitorId, b.userId⟩,
        by simp, rfl, rfl, rfl⟩

/-- **C4.** (spec-modelled) The conversation resolver preserves the
at-most-one-conversation-per-pair invariant, and resolving the same
pair again returns the same conversation id without changing the
state: repeated resolutions reference exactly one conversation. -/
theorem resolve_conversation_idempotent
    (chatbotId visitorId freshId freshId2 : String)
    (s : RelationalState) (hinv : pairUnique s.conversations)
    {i : String} {s' : RelationalState}
    (h : get_or_create_conversation chatbotId visitorId freshId s
      = .ok (i, s')) :
    pairUnique s'.conversations ∧
    get_or_create_conversation chatbotId visitorId freshId2 s'
      = .ok (i, s') := by
  unfold get_or_create_conversation at h
  cases hfind : s.conversations.find?
      (fun c => c.chatbotId == chatbotId && c.visitorId == visitorId) with
  | some c =>
    rw [hfind] at h
    cases h
    refine ⟨hinv, ?_⟩
    unfold get_or_create_conversation
    rw [hfind]
  | none =>
    rw [hfind] at h
    cases hbot : s.chatbots.find? (fun b => b.id == chatbotId) with
    | none => rw [hbot] at h; cases h
    | some b =>
      rw [hbot] at h
      cases h
      have hnone : ∀ c ∈ s.conversations,
          ¬(c.chatbotId = chatbotId ∧ c.visitorId = visitorId) := by
        intro c hc hmatch
        have := List.find?_eq_none.mp hfind c hc
        simp only [Bool.and_eq_true, beq_iff_eq] at this
        exact this ⟨hmatch.1, hmatch.2⟩
      constructor
      · unfold pairUnique
        rw [List.pairwise_append]
        refine ⟨hinv, List.pairwise_singleton _ _, ?_⟩
        intro c1 hc1 c2 hc2
        rw [List.mem_singleton] at hc2
        subst hc2
        intro hmatch
        exact hnone c1 hc1 ⟨hmatch.1, hmatch.2⟩
      · unfold get_or_create_conversation
        rw [List.find?_append, hfind]
        simp

/-- Witness for C4: resolving a fresh pair creates one conversation and
a second resolution returns the same id on the unchanged state. -/
theorem resolve_conversation_idempotent_witness :
    (pairUnique ([] : List Conversation) ∧
      get_or_create_conversation "cb" "v" "conv1" ⟨[⟨"cb", "owner"⟩], []⟩
        = .ok ("conv1", ⟨[⟨"cb", "owner"⟩], [⟨"conv1", "cb", "v", "owner"⟩]⟩)) ∧
    (pairUnique
        (RelationalState.conversations
          ⟨[⟨"cb", "owner"⟩], [⟨"conv1", "cb", "v", "owner"⟩]⟩) ∧
      get_or_create_conversation "cb" "v" "conv2"
          ⟨[⟨"cb", "owner"⟩], [⟨"conv1", "cb", "v", "owner"⟩]⟩
        = .ok ("conv1",
            ⟨[⟨"cb", "owner"⟩], [⟨"conv1", "cb", "v", "owner"⟩]⟩)) :=
  ⟨⟨List.Pairwise.nil, by rfl⟩,
    resolve_conversation_idempotent "cb" "v" "conv1" "conv2"
      ⟨[⟨"cb", "owner"⟩], []⟩ List.Pairwise.nil (by rfl)⟩

/-! ## Startup credential checks

`app/embeddings.py` lines 19-21:

```python
openai.api_key = os.getenv("OPENAI_API_KEY")
if not openai.api_key:
    raise ValueError("Missing OpenAI API key. Set OPENAI_API_KEY in .env file.")
```

`app/main.py` lines 55-57 perform the identical check at import time.
`src/start.py` (line 70) logs, for the same condition, that the
"application will run in demo mode".  Module initialisation is modelled
as a computation that either succeeds or raises. -/

def embeddings_module_init (apiKey : Option String) : Except String Unit :=
  if truthy apiKey then .ok ()
  else .error "Missing OpenAI API key. Set OPENAI_API_KEY in .env file."

def main_module_init (apiKey : Option String) : Except String Unit :=
  if truthy apiKey then .ok ()
  else .error "Missing OpenAI API key. Set OPENAI_API_KEY in .env file."

/-- **C5.** When no language-model/embedding credentials are configured
(`OPENAI_API_KEY` unset or empty), module initialisation of both
`app.embeddings` and `app.main` raises `ValueError`: startup aborts
instead of entering demo mode, contradicting the claim (and the
"application will run in demo mode" log in `start.py`). -/
theorem startup_aborts_without_api_key :
    embeddings_module_init none
      = .error "Missing OpenAI API key. Set OPENAI_API_KEY in .env file." ∧
    embeddings_module_init (some "")
      = .error "Missing OpenAI API key. Set OPENAI_API_KEY in .env file." ∧
    main_module_init none
      = .error "Missing OpenAI API key. Set OPENAI_API_KEY in .env file." ∧
    (∀ k, embeddings_module_init k = .ok () ↔ truthy k = true) :=
  ⟨rfl, rfl, rfl, fun k => by
    unfold embeddings_module_init
    cases h : truthy k <;> simp⟩

/-! ## Response generator

`generate_ai_response` (`app/embeddings.py` lines 538-750) makes a
single `openai.chat.completions.create` call inside one `try:` block.
The except clauses return, in source order: for `openai.APIError`,
`openai.APIConnectionError` and `openai.RateLimitError` an apology that
appends `str(e)`; for any other exception a fixed apology mentioning the
persona name; the outer handler returns a fixed internal-error string.
(The model matches each outcome class to its named handler; in the
`openai` library the connection/rate-limit classes are subclasses of
`APIError`, so at runtime the first handler would catch them — every
such handler appends `str(e)`, so the claims are unaffected.)

An LLM call outcome is either a successful completion or an exception
of one of these classes. -/

inductive LLMOutcome where
  | success (content : String)
  | apiError (msg : String)
  | apiConnectionError (msg : String)
  | rateLimitError (msg : String)
  | otherError (msg : String)
deriving DecidableEq, Repr

/-- The inner try/except of `generate_ai_response`, given the outcome of
the single completion call. -/
def generate_ai_response_llm (name : String) (outcome : LLMOutcome) :
    String :=
  match outcome with
  | .success c => c.trim
  | .apiError m =>
      "I apologize, I encountered an API issue processing your request. " ++
        "Error details: " ++ m
  | .apiConnectionError m =>
      "I apologize, I couldn\x27t connect to the AI service. " ++
        "Please check the connection. Error details: " ++ m
  | .rateLimitError m =>
      "I apologize, the AI service is currently overloaded. " ++
        "Please try again later. Error details: " ++ m
  | .otherError _ =>
      "I apologize, but I\x27m having trouble processing your request as " ++
        name ++ "\x27s AI clone. Please try again later."

/-- The call structure of `generate_ai_response`: the function performs
exactly one completion call (no loop, no retry).  `outcomes` lists what
successive attempts would return; the pair is the returned string and
the number of attempts consumed. -/
def generate_ai_response_attempts (name : String)
    (outcomes : List LLMOutcome) : String × Nat :=
  match outcomes with
  | [] =>
      ("I\x27m sorry, I encountered an unexpected internal error while " ++
        "generating a response.", 0)
  | o :: _ => (generate_ai_response_llm name o, 1)

/-- **C6 counterexample.**  Two provider failures of the same class
(`APIError`) with different exception texts produce different fallback
strings, and the raw exception text appears verbatim in the reply: the
fallback is not a deterministic string chosen by failure class, and raw
provider exception content is propagated to the caller. -/
theorem generate_ai_response_leaks_exception :
    generate_ai_response_llm "Alice" (.apiError "boom-secret")
      = "I apologize, I encountered an API issue processing your request. " ++
        "Error details: " ++ "boom-secret" ∧
    generate_ai_response_llm "Alice" (.apiError "boom-secret")
      ≠ generate_ai_response_llm "Alice" (.apiError "other-error") := by
  constructor
  · rfl
  · decide

/-- **C6 amended.**  Every provider failure yields an apology fallback
string determined by the failure class and the exception text — the
call never propagates the exception itself — but the `APIError`,
`APIConnectionError` and `RateLimitError` fallbacks embed the raw
exception text `str(e)`; only the catch-all handler's fallback is a
fixed string independent of the error. -/
theorem generate_ai_response_fallbacks (name m : String) :
    generate_ai_response_llm name (.apiError m)
      = "I apologize, I encountered an API issue processing your request. " ++
        "Error details: " ++ m ∧
    generate_ai_response_llm name (.apiConnectionError m)
      = "I apologize, I couldn\x27t connect to the AI service. " ++
        "Please check the connection. Error details: " ++ m ∧
    generate_ai_response_llm name (.rateLimitError m)
      = "I apologize, the AI service is currently overloaded. " ++
        "Please try again later. Error details: " ++ m ∧
    generate_ai_response_llm name (.otherError m)
      = generate_ai_response_llm name (.otherError "") :=
  ⟨rfl, rfl, rfl, rfl⟩

/-- **C7 counterexample.**  With a transient connection failure on the
first attempt and a successful completion available on the second, the
generator consumes exactly one attempt and returns the fallback — it
never retries, so the 3-attempt exponential backoff the claim describes
does not exist. -/
theorem generate_ai_response_no_retry :
    (generate_ai_response_attempts "Alice"
      [.apiConnectionError "timeout", .success "hello"]).2 = 1 ∧
    (generate_ai_response_attempts "Alice"
      [.apiConnectionError "timeout", .success "hello"]).1 ≠ "hello" := by
  constructor
  · rfl
  · decide

/-- **C7 amended.**  The response generator makes exactly one
language-model attempt per request: on any outcome of the first attempt
it immediately returns (the completion or the fallback string) without
retrying, with no backoff or delay. -/
theorem generate_ai_response_single_attempt (name : String)
    (o : LLMOutcome) (rest : List LLMOutcome) :
    generate_ai_response_attempts name (o :: rest)
      = (generate_ai_response_llm name o, 1) :=
  rfl

/-! ## Embedding fallback

`OpenAIEmbeddingFunction.__call__` (`app/embeddings.py` lines 39-58):
a string input is wrapped into a one-element list; on any exception
from the embedding call the function returns `[[0.0] * 1536] *
len(input)` instead of raising.  Embedding vectors are modelled with
`Int` entries (only the zero placeholder matters to the claim); the
provider call is an input of the model. -/

def EMBEDDING_DIM : Nat := 1536

/-- `if isinstance(input, str): input = [input]`. -/
def normalizeEmbedInput : String ⊕ List String → List String
  | .inl s => [s]
  | .inr l => l

/-- `OpenAIEmbeddingFunction.__call__`: embeddings from the provider on
success, one zero vector of dimension 1536 per input text on failure. -/
def OpenAIEmbeddingFunction_call (raw : String ⊕ List String)
    (provider : List String → Except String (List (List Int))) :
    List (List Int) :=
  let input := normalizeEmbedInput raw
  match provider input with
  | .ok embeds => embeds
  | .error _ => List.replicate input.length (List.replicate EMBEDDING_DIM 0)

/-- **C8.** When the embedding call fails, the embedding function
returns exactly one zero vector of the fixed dimension 1536 per input
text instead of raising. -/
theorem embedding_failure_zero_vectors (raw : String ⊕ List String)
    (provider : List String → Except String (List (List Int)))
    (msg : String) (hfail : provider (normalizeEmbedInput raw) = .error msg) :
    OpenAIEmbeddingFunction_call raw provider
      = List.replicate (normalizeEmbedInput raw).length
          (List.replicate EMBEDDING_DIM 0) ∧
    (OpenAIEmbeddingFunction_call raw provider).length
      = (normalizeEmbedInput raw).length ∧
    ∀ v ∈ OpenAIEmbeddingFunction_call raw provider,
      v.length = 1536 ∧ ∀ x ∈ v, x = 0 := by
  have hres : OpenAIEmbeddingFunction_call raw provider
      = List.replicate (normalizeEmbedInput raw).length
          (List.replicate EMBEDDING_DIM 0) := by
    unfold OpenAIEmbeddingFunction_call
    simp only []
    rw [hfail]
  refine ⟨hres, by rw [hres]; exact List.length_replicate _ _, ?_⟩
  intro v hv
  rw [hres] at hv
  have hv' := List.eq_of_mem_replicate hv
  subst hv'
  refine ⟨List.length_replicate _ _, ?_⟩
  intro x hx
  exact List.eq_of_mem_replicate hx

/-- Witness for C8: a two-text batch with a failing provider yields two
zero vectors of dimension 1536. -/
theorem embedding_failure_zero_vectors_witness :
    (fun _ : List String =>
        (.error "api down" : Except String (List (List Int))))
      (normalizeEmbedInput (.inr ["a", "b"])) = .error "api down" ∧
    (OpenAIEmbeddingFunction_call (.inr ["a", "b"])
        (fun _ => .error "api down")
      = List.replicate (normalizeEmbedInput
          (.inr ["a", "b"] : String ⊕ List String)).length
          (List.replicate EMBEDDING_DIM 0) ∧
    (OpenAIEmbeddingFunction_call (.inr ["a", "b"])
        (fun _ => .error "api down")).length
      = (normalizeEmbedInput (.inr ["a", "b"] : String ⊕ List String)).length ∧
    ∀ v ∈ OpenAIEmbeddingFunction_call (.inr ["a", "b"])
        (fun _ => .error "api down"),
      v.length = 1536 ∧ ∀ x ∈ v, x = 0) :=
  ⟨rfl, embedding_failure_zero_vectors (.inr ["a", "b"])
    (fun _ => .error "api down") "api down" rfl⟩

/-! ## Conversation store reads

`get_chat_history` (`app/database.py` lines 838-929) takes `limit`,
`visitor_id`, `target_user_id` and `chatbot_id` — it has no order
parameter.  Its in-memory path (lines 854-876, mirrored by
`get_in_memory_chat_history`) filters the visitor's messages, sorts
them by `created_at` with `reverse=True` (newest first, Python's stable
sort) and applies the limit; the Supabase path likewise orders by
`created_at` descending.  Messages carry ISO-8601 UTC `created_at`
strings, which compare lexicographically in chronological order; the
sort key is modelled as `Nat`. -/

structure StoredMessage where
  id : String
  message : String
  response : String
  sender : String
  visitorId : String
  createdAt : Nat
deriving DecidableEq, Repr

/-- The in-memory path of `get_chat_history`: if a truthy `visitor_id`
is given and present in `in_memory_messages`, sort that visitor's
messages newest-first (stable) and take `limit`; otherwise return the
empty history. -/
def get_chat_history (limit : Nat) (visitor_id : Option String)
    (in_memory_messages : List (String × List StoredMessage)) :
    List StoredMessage :=
  if truthy visitor_id then
    match in_memory_messages.lookup (visitor_id.getD "") with
    | some history =>
        (history.mergeSort
          (fun a b => decide (b.createdAt ≤ a.createdAt))).take limit
    | none => []
  else []

/-- **C9 counterexample.**  `get_chat_history` has no order parameter;
for a store holding an older message (`createdAt 1`) and a newer one
(`createdAt 2`) and a limit large enough for both, it returns them
newest-first — not in chronological order — so no caller-chosen
forward/chronological read exists. -/
theorem get_chat_history_not_chronological :
    get_chat_history 10 (some "v")
        [("v", [⟨"m1", "hi", "r1", "user", "v", 1⟩,
                ⟨"m2", "again", "r2", "user", "v", 2⟩])]
      = [⟨"m2", "again", "r2", "user", "v", 2⟩,
         ⟨"m1", "hi", "r1", "user", "v", 1⟩] ∧
    ¬(get_chat_history 10 (some "v")
        [("v", [⟨"m1", "hi", "r1", "user", "v", 1⟩,
                ⟨"m2", "again", "r2", "user", "v", 2⟩])]).Pairwise
      (fun a b => a.createdAt ≤ b.createdAt) := by
  have hres : get_chat_history 10 (some "v")
      [("v", [⟨"m1", "hi", "r1", "user", "v", 1⟩,
              ⟨"m2", "again", "r2", "user", "v", 2⟩])]
      = [⟨"m2", "again", "r2", "user", "v", 2⟩,
         ⟨"m1", "hi", "r1", "user", "v", 1⟩] := by
    have htv : truthy (some "v") = true := by decide
    simp [get_chat_history, htv, List.mergeSort, List.merge, List.lookup]
  refine ⟨hres, ?_⟩
  rw [hres]
  intro hp
  have h21 := List.rel_of_pairwise_cons hp (List.mem_singleton.mpr rfl)
  exact absurd h21 (by decide)

/-- **C9 amended.**  For every visitor and limit `N`, `get_chat_history`
returns at most `N` messages sorted latest-first (non-increasing
`created_at`); there is no order parameter, and callers needing
chronological order re-sort the result themselves (as
`chat_with_public_chatbot` does in `app/routes/chatbot.py`). -/
theorem get_chat_history_reverse_spec (limit : Nat)
    (visitor_id : Option String)
    (in_memory_messages : List (String × List StoredMessage)) :
    (get_chat_history limit visitor_id in_memory_messages).length ≤ limit ∧
    (get_chat_history limit visitor_id in_memory_messages).Pairwise
      (fun a b => b.createdAt ≤ a.createdAt) := by
  unfold get_chat_history
  by_cases ht : truthy visitor_id
  · rw [if_pos ht]
    cases hfind : in_memory_messages.lookup (visitor_id.getD "") with
    | none => exact ⟨by simp, by simp⟩
    | some history =>
      constructor
      · exact List.length_take_le _ _
      · have hsorted := @List.sorted_mergeSort StoredMessage
          (fun a b : StoredMessage =>
            decide (b.createdAt ≤ a.createdAt))
          (fun a b c hab hbc => by
            simp only [decide_eq_true_eq] at hab hbc ⊢; omega)
          (fun a b => by
            simp only [Bool.or_eq_true, decide_eq_true_eq]; omega)
          history
        have hp : (history.mergeSort
            (fun a b => decide (b.createdAt ≤ a.createdAt))).Pairwise
            (fun a b : StoredMessage => b.createdAt ≤ a.createdAt) :=
          hsorted.imp (fun h => of_decide_eq_true h)
        exact List.Pairwise.sublist (List.take_sublist _ _) hp
  · rw [if_neg ht]
    exact ⟨by simp, by simp⟩

/-! ## Profile field round-trip

`update_profile_data` (`app/database.py` lines 210-394) has two
branches.  When the Supabase client is available and a profile row
exists for the user, it converts every empty-or-whitespace string value
in the update dict to `None` (NULL) before writing (lines 255-263).
When the Supabase client is unavailable (`supabase is None`, lines
226-240), it falls back to the in-memory profile dict and stores every
value verbatim — no blank-to-NULL conversion.

`get_profile_data` mirrors this: on the Supabase path with a found row
it replaces missing, null or empty-string fields with the fixed
per-field default (lines 115-135), but on the `supabase is None` path
(lines 90-96) it returns a raw copy of the in-memory profile with no
default substitution.

A durable profile row maps each of the seven claim fields to an
optional (nullable) string; the in-memory profile dict always holds a
string per field (it starts from `DEFAULT_PROFILE` and the
`update_profile_data` fallback writes the string values of the update
dict into it; `update_profile_in_memory_only`, lines 1051-1055, would
write converted NULLs but has no callers).  An update dict maps a field
to `none` when the key is absent.  Python's `value.strip() == ''` is
`isBlank`. -/

inductive ProfileField where
  | bio
  | skills
  | experience
  | interests
  | name
  | location
  | projects
deriving DecidableEq, Repr

/-- `value.strip() == ''`: every character is whitespace. -/
def isBlank (s : String) : Bool := s.data.all (fun c => c.isWhitespace)

/-- The `default_values` dict of `get_profile_data` (lines 116-124). -/
def default_values : ProfileField → String
  | .bio =>
      "I am a software engineer with a passion for building AI and " ++
        "web applications."
  | .skills => "JavaScript, TypeScript, React, Node.js, Python"
  | .experience => "5+ years of experience in software development"
  | .interests => "AI, web development, reading"
  | .name => "New User"
  | .location => "Worldwide"
  | .projects => "AI-powered applications"

/-- The Supabase write of `update_profile_data` on an existing row
(lines 255-263, 282): a string value present in the update dict is
stored, with empty/whitespace-only strings converted to NULL; absent
keys leave the stored value unchanged. -/
def update_profile_fields (row data : ProfileField → Option String) :
    ProfileField → Option String :=
  fun f =>
    match data f with
    | none => row f
    | some v => if isBlank v then none else some v

/-- The in-memory fallback of `update_profile_data` (lines 226-240,
taken when the Supabase client is unavailable): every value in the
update dict is stored verbatim in the in-memory profile — no
blank-to-NULL conversion. -/
def update_profile_in_memory (mem : ProfileField → String)
    (data : ProfileField → Option String) : ProfileField → String :=
  fun f =>
    match data f with
    | none => mem f
    | some v => v

/-- `update_profile_data`: dispatch on Supabase availability.  Returns
the durable row and the in-memory profile after the update. -/
def update_profile_data (supabaseAvailable : Bool)
    (row : ProfileField → Option String) (mem : ProfileField → String)
    (data : ProfileField → Option String) :
    (ProfileField → Option String) × (ProfileField → String) :=
  if supabaseAvailable then (update_profile_fields row data, mem)
  else (row, update_profile_in_memory mem data)

/-- The field read of `get_profile_data` on a found Supabase profile
row (lines 115-135): missing/null fields and empty-string fields yield
the built-in default. -/
def get_profile_row (row : ProfileField → Option String) :
    ProfileField → String :=
  fun f =>
    match row f with
    | none => default_values f
    | some s => if isBlank s then default_values f else s

/-- `get_profile_data`: dispatch on Supabase availability.  The
`supabase is None` path (lines 90-96) returns a raw copy of the
in-memory profile, with no default substitution. -/
def get_profile_data (supabaseAvailable : Bool)
    (row : ProfileField → Option String) (mem : ProfileField → String) :
    ProfileField → String :=
  if supabaseAvailable then get_profile_row row else mem

/-- **C10 counterexample.**  In the supported in-memory fallback mode
(Supabase client unavailable), updating the bio with the empty string
stores the empty string verbatim — not NULL — and the subsequent read
returns the empty string to the reader, refuting the claim that the
empty string is never returned. -/
theorem profile_blank_in_memory_counterexample :
    (update_profile_data false (fun _ => none)
        (fun _ => "an old bio") (fun _ => some "")).2 ProfileField.bio
      = "" ∧
    get_profile_data false
        (update_profile_data false (fun _ => none)
          (fun _ => "an old bio") (fun _ => some "")).1
        (update_profile_data false (fun _ => none)
          (fun _ => "an old bio") (fun _ => some "")).2 ProfileField.bio
      = "" :=
  ⟨rfl, rfl⟩

/-- **C10 amended.**  On the Supabase path with an existing profile
row, updating any of the seven fields with an empty or whitespace-only
string stores NULL for it, a subsequent read returns the fixed
built-in default string for that field, and such a read never returns
the empty string; but in the in-memory fallback mode (Supabase client
unavailable) the update stores the value verbatim with no NULL
conversion and the read returns the raw stored profile with no
defaults, so a reader can receive the empty string. -/
theorem profile_blank_field_spec
    (row : ProfileField → Option String) (mem : ProfileField → String)
    (data : ProfileField → Option String) (f : ProfileField)
    (v : String) (hdata : data f = some v) (hblank : isBlank v = true) :
    ((update_profile_data true row mem data).1 f = none ∧
      get_profile_data true (update_profile_data true row mem data).1
        (update_profile_data true row mem data).2 f = default_values f ∧
      ∀ (row2 : ProfileField → Option String) (mem2 : ProfileField → String)
        (g : ProfileField), get_profile_data true row2 mem2 g ≠ "") ∧
    ((update_profile_data false row mem data).2 f = v ∧
      get_profile_data false (update_profile_data false row mem data).1
        (update_profile_data false row mem data).2 f = v) := by
  have hupd : update_profile_fields row data f = none := by
    unfold update_profile_fields
    rw [hdata]
    show (if isBlank v = true then (none : Option String) else some v) = none
    rw [if_pos hblank]
  have hmem : update_profile_in_memory mem data f = v := by
    unfold update_profile_in_memory
    rw [hdata]
  constructor
  · refine ⟨hupd, ?_, ?_⟩
    · show get_profile_row (update_profile_fields row data) f
        = default_values f
      unfold get_profile_row
      rw [hupd]
    · intro row2 mem2 g
      show get_profile_row row2 g ≠ ""
      unfold get_profile_row
      have hdef : default_values g ≠ "" := by
        cases g <;> decide
      cases hrow : row2 g with
      | none => exact hdef
      | some s =>
        show (if isBlank s = true then default_values g else s) ≠ ""
        by_cases hb : isBlank s
        · rw [if_pos hb]; exact hdef
        · rw [if_neg hb]
          intro hs
          subst hs
          exact hb (by decide)
  · exact ⟨hmem, hmem⟩

/-- Witness for the amended C10: updating the bio with a
whitespace-only string, in both modes. -/
theorem profile_blank_field_spec_witness :
    ((fun _ : ProfileField => some "   ") ProfileField.bio = some "   " ∧
      isBlank "   " = true) ∧
    (((update_profile_data true (fun _ => some "old bio")
          (fun _ => "old bio") (fun _ => some "   ")).1 ProfileField.bio
        = none ∧
      get_profile_data true
          (update_profile_data true (fun _ => some "old bio")
            (fun _ => "old bio") (fun _ => some "   ")).1
          (update_profile_data true (fun _ => some "old bio")
            (fun _ => "old bio") (fun _ => some "   ")).2 ProfileField.bio
        = default_values ProfileField.bio ∧
      ∀ (row2 : ProfileField → Option String) (mem2 : ProfileField → String)
        (g : ProfileField), get_profile_data true row2 mem2 g ≠ "") ∧
    ((update_profile_data false (fun _ => some "old bio")
          (fun _ => "old bio") (fun _ => some "   ")).2 ProfileField.bio
        = "   " ∧
      get_profile_data false
          (update_profile_data false (fun _ => some "old bio")
            (fun _ => "old bio") (fun _ => some "   ")).1
          (update_profile_data false (fun _ => some "old bio")
            (fun _ => "old bio") (fun _ => some "   ")).2 ProfileField.bio
        = "   ")) :=
  ⟨⟨rfl, by decide⟩,
    profile_blank_field_spec (fun _ => some "old bio") (fun _ => "old bio")
      (fun _ => some "   ") ProfileField.bio "   " rfl (by decide)⟩

end AgentBackend
